import Mathlib

/-!
Verification of the inventory-system ERP backend: the weighted-average costing
engine, purchase-invoice engine, payment-allocation engine, and the
recipe/production state machine.

Monetary values (`Decimal` in the source) are modelled as exact rationals `ℚ`;
stock quantities (`Integer` columns) are modelled as `ℤ`.  Fallible service
operations (those that raise `ValueError` and roll back) are modelled as
`Option`-returning functions where `none` is the validation error / rollback.
-/

namespace Inventory

/-- Invoice payment status, from `app/models/stock.py` (`InvoiceStatus`). -/
inductive InvoiceStatus where
  | UNPAID
  | PART_PAID
  | PAID
  deriving DecidableEq, Repr

/-- Payment type, from `app/models/payment.py` (`PaymentType`).  The source's
middle constructor is the partial-payment tag. -/
inductive PaymentType where
  | FULL
  | PART_PAID
  | UN_PAID
  deriving DecidableEq, Repr

/-- Production batch stage, from `app/models/recipe.py` (`ProductionStage`). -/
inductive ProductionStage where
  | DRAFT
  | IN_PROCESS
  | DONE
  deriving DecidableEq, Repr

/-- The mutable aggregate fields of an `Item`
(`app/models/item_category.py`): `total_quantity` and `avg_price`. -/
structure ItemState where
  total_quantity : ℤ
  avg_price : ℚ
  deriving DecidableEq, Repr

/-- One purchase line (`PurchaseItem`): quantity and unit price. -/
structure PurchaseLine where
  quantity : ℤ
  unit_price : ℚ
  deriving DecidableEq, Repr

/-- `calculate_weighted_average` from `app/services/purchase_service.py`
(lines 32-59): `(old_qty*old_avg + new_qty*new_price) / (old_qty + new_qty)`,
returning `0` (without raising) when the total quantity is zero. -/
def calculate_weighted_average (current_qty : ℤ) (current_avg_price : ℚ)
    (new_qty : ℤ) (new_price : ℚ) : ℚ :=
  if current_qty + new_qty = 0 then 0
  else ((current_qty : ℚ) * current_avg_price + (new_qty : ℚ) * new_price)
        / ((current_qty + new_qty : ℤ) : ℚ)

/-- The stock effect of `PurchaseService._create_purchase_item_and_update_stock`
(purchase_service.py lines 676-737) on the purchased item:
`total_quantity += quantity` and `avg_price := calculate_weighted_average …`. -/
def applyIncoming (s : ItemState) (l : PurchaseLine) : ItemState :=
  { total_quantity := s.total_quantity + l.quantity
    avg_price := calculate_weighted_average s.total_quantity s.avg_price
        l.quantity l.unit_price }

/-- The per-line stock effect of `PurchaseService._reverse_invoice_items`
(purchase_service.py lines 363-437): if the item's current quantity equals the
line quantity the item resets to `(0, 0)`; if it is larger, the weighted
average is reversed algebraically; otherwise (removing more than exists) the
quantity is clamped at `0` and the average is left unchanged. -/
def reverseLine (s : ItemState) (l : PurchaseLine) : ItemState :=
  if s.total_quantity = l.quantity then
    { total_quantity := 0, avg_price := 0 }
  else if l.quantity < s.total_quantity then
    let new_total_value := s.avg_price * (s.total_quantity : ℚ)
        - l.unit_price * (l.quantity : ℚ)
    let new_quantity := s.total_quantity - l.quantity
    if 0 < new_quantity then
      { total_quantity := new_quantity
        avg_price := new_total_value / (new_quantity : ℚ) }
    else
      { total_quantity := 0, avg_price := 0 }
  else
    { total_quantity := max 0 (s.total_quantity - l.quantity)
      avg_price := s.avg_price }

/-- The per-raw-item deduction step of `production_execute_draft`
(production_service.py lines 299-317): re-check the row's quantity under lock
and subtract `qty_out`, raising (here `none`) if stock is insufficient.
The average price is not touched by an outgoing movement. -/
def productionDeduct (s : ItemState) (qty_out : ℤ) : Option ItemState :=
  if s.total_quantity < qty_out then none
  else some { s with total_quantity := s.total_quantity - qty_out }

/-- `PurchaseService._determine_payment_status` (purchase_service.py lines
663-674): `PAID` if `paid_amount >= total_amount`, else the partial status if
`paid_amount > 0`, else `UNPAID`. -/
def determine_payment_status (total_amount paid_amount : ℚ) : InvoiceStatus :=
  if total_amount ≤ paid_amount then InvoiceStatus.PAID
  else if 0 < paid_amount then InvoiceStatus.PART_PAID
  else InvoiceStatus.UNPAID

/-- The monetary fields of a `PurchaseInvoice` (`app/models/stock.py`). -/
structure Invoice where
  total_amount : ℚ
  paid_amount : ℚ
  balance_due : ℚ
  payment_status : InvoiceStatus
  deriving DecidableEq, Repr

/-- Reference carried by a financial-ledger row (`ref_id` column): either a
purchase-invoice id, a payment id, or a direct-payment batch tag. -/
inductive LedgerRef where
  | invoice (n : ℕ)
  | payment (n : ℕ)
  | directBatch (n : ℕ)
  deriving DecidableEq, Repr

/-- `ref_type` tag of a financial-ledger row (`app/models/financial_ledger.py`
usage sites in the services). -/
inductive LedgerRefType where
  | PURCHASE
  | PURCHASE_UPDATE
  | PAYMENT
  | DIRECT_PAYMENT
  deriving DecidableEq, Repr

/-- One `FinancialLedger` row for the supplier: debit/credit amounts with the
reference tag and id. -/
structure FinRow where
  ref_type : LedgerRefType
  ref : LedgerRef
  debit : ℚ
  credit : ℚ
  deriving DecidableEq, Repr

/-- `PaymentType` derivation in `PurchaseService._process_purchase_payment`
(purchase_service.py lines 792-798): `FULL` if `amount >= invoice.total_amount`,
else the partial tag if `amount > 0`, else `UN_PAID`.  Note the comparison is
against the invoice's `total_amount`, not its `balance_due`. -/
def determine_payment_type (amount total_amount : ℚ) : PaymentType :=
  if total_amount ≤ amount then PaymentType.FULL
  else if 0 < amount then PaymentType.PART_PAID
  else PaymentType.UN_PAID

/-- `PaymentType` derivation for a direct-payment allocation
(payment_supplier.py line 179): `FULL` iff the allocated amount is at least the
invoice's current `balance_due`. -/
def direct_payment_type (allocated balance_due : ℚ) : PaymentType :=
  if balance_due ≤ allocated then PaymentType.FULL else PaymentType.PART_PAID

/-- Validation applied to each purchase line by
`PurchaseService._validate_and_calculate_items` (purchase_service.py lines
604-661): quantity and unit price strictly positive, item must exist. -/
def lineValid (item_exists : Bool) (l : PurchaseLine) : Bool :=
  decide (0 < l.quantity) && decide (0 < l.unit_price) && item_exists

/-- Line input to `create_purchase`: a purchase line plus whether its item id
resolves to an existing `Item`. -/
structure PLine where
  item_exists : Bool
  line : PurchaseLine
  deriving DecidableEq, Repr

/-- `total_amount` as summed by `_validate_and_calculate_items`:
`Σ unit_price * quantity` over the lines. -/
def purchase_total (lines : List PLine) : ℚ :=
  (lines.map fun l => l.line.unit_price * (l.line.quantity : ℚ)).sum

/-- Result of a successful `create_purchase`: the persisted invoice header, the
financial-ledger rows appended, and the initial payment (amount and derived
type) if one was processed. -/
structure PurchaseResult where
  invoice : Invoice
  fin_rows : List FinRow
  initial_payment : Option (ℚ × PaymentType)
  deriving DecidableEq, Repr

/-- `PurchaseService.create_purchase` (purchase_service.py lines 119-230),
restricted to one supplier: validate supplier and lines, sum the total, build
the invoice header with `balance_due = total - payment_amount` and the derived
status, append the supplier debit row, and — only when `payment_amount > 0`
and an account id was supplied — process the initial payment through
`_process_purchase_payment` (which validates the account, derives the payment
type against `total_amount`, and appends a credit row).  There is no check
that `payment_amount` does not exceed the total.  `account_given` models
whether a `payment_account_id` was supplied; `account_ok` models whether that
id resolves to a `PaymentAccount`. -/
def create_purchase (supplier_ok : Bool) (invoice_id payment_id : ℕ)
    (lines : List PLine) (payment_amount : ℚ)
    (account_given account_ok : Bool) : Option PurchaseResult :=
  if ¬supplier_ok then none
  else if lines.isEmpty then none
  else if ¬(lines.all fun l => lineValid l.item_exists l.line) then none
  else
    let total := purchase_total lines
    let invoice : Invoice :=
      { total_amount := total
        paid_amount := payment_amount
        balance_due := total - payment_amount
        payment_status := determine_payment_status total payment_amount }
    let debitRow : FinRow :=
      ⟨LedgerRefType.PURCHASE, LedgerRef.invoice invoice_id, total, 0⟩
    if 0 < payment_amount ∧ account_given = true then
      if ¬account_ok then none
      else
        some ⟨invoice,
          [debitRow,
           ⟨LedgerRefType.PAYMENT, LedgerRef.payment payment_id, 0,
            payment_amount⟩],
          some (payment_amount, determine_payment_type payment_amount total)⟩
    else some ⟨invoice, [debitRow], none⟩

/-- `PurchaseService.add_payment_to_purchase` (purchase_service.py lines
841-957), invoice-level effect: reject a non-positive amount or an amount
exceeding `balance_due` or an unknown account; otherwise derive the payment
type (via `_process_purchase_payment`), add to `paid_amount`, subtract from
`balance_due`, and re-derive `payment_status` from the updated paid amount. -/
def add_payment_to_purchase (inv : Invoice) (amount : ℚ) (account_ok : Bool) :
    Option (Invoice × PaymentType) :=
  if amount ≤ 0 then none
  else if inv.balance_due < amount then none
  else if ¬account_ok then none
  else
    some ({ inv with
              paid_amount := inv.paid_amount + amount
              balance_due := inv.balance_due - amount
              payment_status := determine_payment_status inv.total_amount
                  (inv.paid_amount + amount) },
          determine_payment_type amount inv.total_amount)

/-- `PurchaseService.delete_payment` (purchase_service.py lines 959-1023),
invoice-level effect of deleting a payment of the given amount:
`paid_amount -= amount`, `balance_due += amount`, then set status `UNPAID` if
the new paid amount is zero, else the partial status if the new balance is
positive, else leave the status unchanged. -/
def delete_payment_update (inv : Invoice) (amount : ℚ) : Invoice :=
  let paid := inv.paid_amount - amount
  let due := inv.balance_due + amount
  { inv with
      paid_amount := paid
      balance_due := due
      payment_status :=
        if paid = 0 then InvoiceStatus.UNPAID
        else if 0 < due then InvoiceStatus.PART_PAID
        else inv.payment_status }

/-- Per-invoice update performed by
`DirectPaymentService.create_direct_payment` (payment_supplier.py lines
183-186): `paid_amount += allocated`, `balance_due -= allocated`, status
`PAID` exactly when the new balance is zero, else the partial status. -/
def apply_direct_allocation (inv : Invoice) (allocated : ℚ) : Invoice :=
  { inv with
      paid_amount := inv.paid_amount + allocated
      balance_due := inv.balance_due - allocated
      payment_status :=
        if inv.balance_due - allocated = 0 then InvoiceStatus.PAID
        else InvoiceStatus.PART_PAID }

/-- `PurchaseService.update_purchase_invoice` (purchase_service.py lines
234-346), invoice-field effect for a new line total: forbidden on a `PAID`
invoice, forbidden when the new total is below the already-paid amount;
otherwise set the new total, `balance_due = new_total - paid_amount`, and
re-derive the status. -/
def update_purchase_invoice_totals (inv : Invoice) (new_total : ℚ) :
    Option Invoice :=
  if inv.payment_status = InvoiceStatus.PAID then none
  else if new_total < inv.paid_amount then none
  else
    some { inv with
             total_amount := new_total
             balance_due := new_total - inv.paid_amount
             payment_status := determine_payment_status new_total
                 inv.paid_amount }

/-- The §4.3 invoice balance invariant: `paid_amount + balance_due ==
total_amount`, and `payment_status` is the pure function
`_determine_payment_status` of `(total_amount, paid_amount)`. -/
def InvoiceInv (inv : Invoice) : Prop :=
  inv.paid_amount + inv.balance_due = inv.total_amount ∧
  inv.payment_status = determine_payment_status inv.total_amount inv.paid_amount

/-- C1: applying an incoming purchase line sets the item's quantity to
`old_qty + qty`; when `old_qty + qty ≠ 0` the new average is
`(old_qty*old_avg + qty*unit_price) / (old_qty + qty)`, and when
`old_qty + qty = 0` the engine does not raise and the average is `0`. -/
theorem weighted_average_incoming_correct (s : ItemState) (l : PurchaseLine) :
    (applyIncoming s l).total_quantity = s.total_quantity + l.quantity ∧
    (s.total_quantity + l.quantity ≠ 0 →
      (applyIncoming s l).avg_price =
        ((s.total_quantity : ℚ) * s.avg_price + (l.quantity : ℚ) * l.unit_price)
          / ((s.total_quantity + l.quantity : ℤ) : ℚ)) ∧
    (s.total_quantity + l.quantity = 0 → (applyIncoming s l).avg_price = 0) := by
  refine ⟨rfl, ?_, ?_⟩
  · intro h
    simp [applyIncoming, calculate_weighted_average, h]
  · intro h
    simp [applyIncoming, calculate_weighted_average, h]

/-- C1 witness: purchasing 5 units at 7/2 into an item holding 10 units at
average 2 gives quantity 15 and average 5/2; the zero-total edge case returns
average 0. -/
theorem weighted_average_incoming_correct_witness :
    (applyIncoming ⟨10, 2⟩ ⟨5, 7/2⟩).total_quantity = 15 ∧
    (applyIncoming ⟨10, 2⟩ ⟨5, 7/2⟩).avg_price = 5/2 ∧
    (applyIncoming ⟨0, 0⟩ ⟨0, 3⟩).avg_price = 0 := by
  obtain ⟨h1, h2, -⟩ := weighted_average_incoming_correct ⟨10, 2⟩ ⟨5, 7/2⟩
  obtain ⟨-, -, h3⟩ := weighted_average_incoming_correct ⟨0, 0⟩ ⟨0, 3⟩
  refine ⟨by simpa using h1, ?_, by simpa using h3 (by norm_num)⟩
  rw [h2 (by norm_num)]
  norm_num

/-- A valid purchase line list yields a nonnegative total. -/
theorem purchase_total_nonneg (lines : List PLine)
    (hval : ∀ l ∈ lines, 0 < l.line.quantity ∧ 0 < l.line.unit_price) :
    0 ≤ purchase_total lines := by
  induction lines with
  | nil => simp [purchase_total]
  | cons l rest ih =>
      have h1 := hval l (by simp)
      have hpos : (0:ℚ) < l.line.unit_price * (l.line.quantity : ℚ) := by
        apply mul_pos h1.2
        exact_mod_cast h1.1
      have h2 : 0 ≤ purchase_total rest :=
        ih (fun x hx => hval x (by simp [hx]))
      simp only [purchase_total, List.map_cons, List.sum_cons]
      simp only [purchase_total] at h2
      linarith

/-- A nonempty valid purchase line list yields a strictly positive total. -/
theorem purchase_total_pos (lines : List PLine) (hne : lines ≠ [])
    (hval : ∀ l ∈ lines, 0 < l.line.quantity ∧ 0 < l.line.unit_price) :
    0 < purchase_total lines := by
  cases lines with
  | nil => exact absurd rfl hne
  | cons l rest =>
      have h1 := hval l (by simp)
      have hpos : (0:ℚ) < l.line.unit_price * (l.line.quantity : ℚ) := by
        apply mul_pos h1.2
        exact_mod_cast h1.1
      have h2 : 0 ≤ purchase_total rest :=
        purchase_total_nonneg rest (fun x hx => hval x (by simp [hx]))
      simp only [purchase_total, List.map_cons, List.sum_cons]
      simp only [purchase_total] at h2
      linarith

/-- Unfolding of the boolean line validation. -/
theorem all_lineValid_iff (lines : List PLine) :
    (lines.all fun l => lineValid l.item_exists l.line) = true ↔
    ∀ l ∈ lines,
      0 < l.line.quantity ∧ 0 < l.line.unit_price ∧ l.item_exists = true := by
  simp [List.all_eq_true, lineValid, and_assoc]

/-- C2: every completed operation touching a purchase invoice preserves the
balance invariant `paid_amount + balance_due = total_amount` together with
`payment_status = _determine_payment_status (total_amount, paid_amount)`:
invoice creation establishes it, and add-payment, invoice update,
payment deletion, and direct-payment allocation each preserve it.  The
payment-deletion case assumes the facts the system maintains at every call
site: the invoice total is positive (line validation forces a positive total)
and the deleted payment's amount is positive and at most the recorded
`paid_amount` (it is one of the payments making up that sum).  The
direct-allocation case likewise assumes `paid_amount ≥ 0` and that the
allocation is positive and capped by `balance_due`, as `_allocate_payment`
guarantees. -/
theorem invoice_balance_invariant :
    (∀ supplier_ok invoice_id payment_id lines pay acct_given acct_ok r,
        create_purchase supplier_ok invoice_id payment_id lines pay
          acct_given acct_ok = some r →
        InvoiceInv r.invoice) ∧
    (∀ inv amount account_ok inv' t,
        InvoiceInv inv →
        add_payment_to_purchase inv amount account_ok = some (inv', t) →
        InvoiceInv inv') ∧
    (∀ inv new_total inv',
        update_purchase_invoice_totals inv new_total = some inv' →
        InvoiceInv inv') ∧
    (∀ inv amount,
        InvoiceInv inv → 0 < inv.total_amount → 0 < amount →
        amount ≤ inv.paid_amount →
        InvoiceInv (delete_payment_update inv amount)) ∧
    (∀ inv allocated,
        InvoiceInv inv → 0 ≤ inv.paid_amount → 0 < allocated →
        allocated ≤ inv.balance_due →
        InvoiceInv (apply_direct_allocation inv allocated)) := by
  refine ⟨?_, ?_, ?_, ?_, ?_⟩
  · intro supplier_ok invoice_id payment_id lines pay acct_given acct_ok r h
    unfold create_purchase at h
    split_ifs at h
    all_goals
      rw [Option.some.injEq] at h
      subst h
      exact ⟨by ring, rfl⟩
  · intro inv amount account_ok inv' t hInv h
    unfold add_payment_to_purchase at h
    split_ifs at h
    simp only [Option.some.injEq, Prod.mk.injEq] at h
    obtain ⟨h1, -⟩ := h
    subst h1
    exact ⟨by have := hInv.1; simp only; linarith, rfl⟩
  · intro inv new_total inv' h
    unfold update_purchase_invoice_totals at h
    split_ifs at h
    simp only [Option.some.injEq] at h
    subst h
    exact ⟨by simp only; ring, rfl⟩
  · intro inv amount hInv hT ha hle
    obtain ⟨hsum, hstat⟩ := hInv
    constructor
    · simp only [delete_payment_update]
      linarith
    · simp only [delete_payment_update]
      split_ifs with h1 h2
      · rw [h1, determine_payment_status, if_neg (by linarith),
          if_neg (by linarith)]
      · have hge : 0 ≤ inv.paid_amount - amount := by linarith
        have hgt : 0 < inv.paid_amount - amount :=
          lt_of_le_of_ne hge (fun hc => h1 hc.symm)
        rw [determine_payment_status, if_neg (by linarith), if_pos hgt]
      · have hdue : inv.balance_due + amount ≤ 0 := by linarith
        rw [hstat, determine_payment_status, determine_payment_status,
          if_pos (by linarith), if_pos (by linarith)]
  · intro inv allocated hInv hpaid ha hle
    obtain ⟨hsum, hstat⟩ := hInv
    constructor
    · simp only [apply_direct_allocation]
      linarith
    · simp only [apply_direct_allocation]
      split_ifs with h1
      · rw [determine_payment_status, if_pos (by linarith)]
      · have hge : 0 ≤ inv.balance_due - allocated := by linarith
        have hgt : 0 < inv.balance_due - allocated :=
          lt_of_le_of_ne hge (fun hc => h1 hc.symm)
        rw [determine_payment_status, if_neg (by linarith),
          if_pos (by linarith)]

/-- C2 witness: the invariant-preservation facts instantiated on the concrete
invoice (total 100, paid 40, due 60): creation of a 20-total invoice, a
60 payment, an update to total 80, deletion of a 40 payment, and a direct
allocation of 60. -/
theorem invoice_balance_invariant_witness :
    InvoiceInv (⟨20, 0, 20, InvoiceStatus.UNPAID⟩ : Invoice) ∧
    InvoiceInv (⟨100, 100, 0, InvoiceStatus.PAID⟩ : Invoice) ∧
    InvoiceInv (⟨80, 40, 40, InvoiceStatus.PART_PAID⟩ : Invoice) ∧
    InvoiceInv (delete_payment_update ⟨100, 40, 60, InvoiceStatus.PART_PAID⟩ 40) ∧
    InvoiceInv (apply_direct_allocation ⟨100, 40, 60, InvoiceStatus.PART_PAID⟩ 60) := by
  have h := invoice_balance_invariant
  have hInv : InvoiceInv (⟨100, 40, 60, InvoiceStatus.PART_PAID⟩ : Invoice) := by
    refine ⟨by norm_num, ?_⟩
    norm_num [determine_payment_status]
  refine ⟨?_, ?_, ?_, ?_, ?_⟩
  · exact h.1 true 0 0 [⟨true, ⟨10, 2⟩⟩] 0 false true
      ⟨⟨20, 0, 20, InvoiceStatus.UNPAID⟩,
        [⟨LedgerRefType.PURCHASE, LedgerRef.invoice 0, 20, 0⟩], none⟩
      (by norm_num [create_purchase, purchase_total, lineValid,
        determine_payment_status])
  · exact h.2.1 ⟨100, 40, 60, InvoiceStatus.PART_PAID⟩ 60 true
      ⟨100, 100, 0, InvoiceStatus.PAID⟩ PaymentType.PART_PAID hInv
      (by norm_num [add_payment_to_purchase, determine_payment_status,
        determine_payment_type])
  · exact h.2.2.1 ⟨100, 40, 60, InvoiceStatus.PART_PAID⟩ 80
      ⟨80, 40, 40, InvoiceStatus.PART_PAID⟩
      (by norm_num [update_purchase_invoice_totals, determine_payment_status]
          intro hc
          exact InvoiceStatus.noConfusion hc)
  · exact h.2.2.2.1 ⟨100, 40, 60, InvoiceStatus.PART_PAID⟩ 40 hInv
      (by norm_num) (by norm_num) (by norm_num)
  · exact h.2.2.2.2 ⟨100, 40, 60, InvoiceStatus.PART_PAID⟩ 60 hInv
      (by norm_num) (by norm_num) (by norm_num)

/-- C9 counterexample: invoice with total 100, paid 40, balance due 60; a
payment of 60 settles the full remaining balance (amount ≥ balance_due), yet
`_process_purchase_payment` derives the partial type because it compares the
amount against `total_amount`, not the balance being settled. -/
theorem payment_type_full_counterexample :
    add_payment_to_purchase ⟨100, 40, 60, InvoiceStatus.PART_PAID⟩ 60 true =
      some (⟨100, 100, 0, InvoiceStatus.PAID⟩, PaymentType.PART_PAID) ∧
    (60 : ℚ) ≤ 60 ∧ PaymentType.PART_PAID ≠ PaymentType.FULL :=
  ⟨by norm_num [add_payment_to_purchase, determine_payment_status,
      determine_payment_type],
   by norm_num, by simp⟩

/-- The `_process_purchase_payment` type derivation yields `FULL` exactly when
the amount reaches the invoice total. -/
theorem determine_payment_type_eq_full (amount total_amount : ℚ) :
    determine_payment_type amount total_amount = PaymentType.FULL ↔
      total_amount ≤ amount := by
  unfold determine_payment_type
  split_ifs with h1 h2 <;> simp [h1]

/-- C9 as amended: a payment persisted through `_process_purchase_payment`
(creation-time or `add_payment_to_purchase`) is typed `FULL` iff its amount is
at least the invoice's `total_amount` — which coincides with the claimed
balance-due rule exactly when nothing was paid before — while a direct-payment
allocation is typed `FULL` iff the allocated amount is at least the invoice's
pre-payment `balance_due`. -/
theorem payment_type_derivation :
    (∀ inv amount account_ok inv' t,
        add_payment_to_purchase inv amount account_ok = some (inv', t) →
        (t = PaymentType.FULL ↔ inv.total_amount ≤ amount)) ∧
    (∀ allocated balance_due,
        direct_payment_type allocated balance_due = PaymentType.FULL ↔
          balance_due ≤ allocated) ∧
    (∀ amount total_amount,
        determine_payment_type amount total_amount = PaymentType.FULL ↔
          total_amount ≤ amount) := by
  refine ⟨?_, ?_, determine_payment_type_eq_full⟩
  · intro inv amount account_ok inv' t h
    unfold add_payment_to_purchase at h
    split_ifs at h
    simp only [Option.some.injEq, Prod.mk.injEq] at h
    obtain ⟨-, h4⟩ := h
    subst h4
    exact determine_payment_type_eq_full amount inv.total_amount
  · intro allocated balance_due
    unfold direct_payment_type
    split_ifs with h1 <;> simp [h1]

/-- C9 amended witness: a 100 payment on a fresh 100-total invoice is typed
`FULL` (100 ≤ 100); a direct allocation of 60 against a 60 balance is `FULL`;
the creation-time derivation at amount 150 against total 100 is `FULL`. -/
theorem payment_type_derivation_witness :
    (PaymentType.FULL = PaymentType.FULL ↔ (100 : ℚ) ≤ 100) ∧
    (direct_payment_type 60 60 = PaymentType.FULL ↔ (60 : ℚ) ≤ 60) ∧
    (determine_payment_type 150 100 = PaymentType.FULL ↔ (100 : ℚ) ≤ 150) := by
  have h := payment_type_derivation
  refine ⟨?_, h.2.1 60 60, h.2.2 150 100⟩
  exact h.1 ⟨100, 0, 100, InvoiceStatus.UNPAID⟩ 100 true
    ⟨100, 100, 0, InvoiceStatus.PAID⟩ PaymentType.FULL
    (by norm_num [add_payment_to_purchase, determine_payment_status,
      determine_payment_type])

/-- C10: a service-layer `create_purchase` whose `payment_amount` exceeds the
line total (valid supplier, nonempty valid lines, valid account) succeeds: the
invoice is persisted with `paid_amount = payment_amount`, a negative
`balance_due = total - payment_amount`, and status `PAID`; by contrast
`add_payment_to_purchase` rejects any amount exceeding `balance_due`. -/
theorem creation_payment_not_capped (invoice_id payment_id : ℕ)
    (lines : List PLine) (payment_amount : ℚ)
    (hne : lines ≠ [])
    (hval : (lines.all fun l => lineValid l.item_exists l.line) = true)
    (hover : purchase_total lines < payment_amount) :
    (∃ r, create_purchase true invoice_id payment_id lines payment_amount
        true true = some r ∧
      r.invoice.paid_amount = payment_amount ∧
      r.invoice.balance_due = purchase_total lines - payment_amount ∧
      r.invoice.balance_due < 0 ∧
      r.invoice.payment_status = InvoiceStatus.PAID) ∧
    (∀ inv amount account_ok, inv.balance_due < amount →
      add_payment_to_purchase inv amount account_ok = none) := by
  constructor
  · have htotal : 0 < purchase_total lines :=
      purchase_total_pos lines hne
        (fun l hl => ⟨((all_lineValid_iff lines).1 hval l hl).1,
          ((all_lineValid_iff lines).1 hval l hl).2.1⟩)
    have hpa : 0 < payment_amount := lt_trans htotal hover
    have hnotEmpty : ¬(lines.isEmpty = true) := by
      cases lines with
      | nil => exact absurd rfl hne
      | cons a as => simp
    have heq : create_purchase true invoice_id payment_id lines payment_amount
        true true =
        some ⟨⟨purchase_total lines, payment_amount,
               purchase_total lines - payment_amount,
               determine_payment_status (purchase_total lines)
                 payment_amount⟩,
              [⟨LedgerRefType.PURCHASE, LedgerRef.invoice invoice_id,
                purchase_total lines, 0⟩,
               ⟨LedgerRefType.PAYMENT, LedgerRef.payment payment_id, 0,
                payment_amount⟩],
              some (payment_amount,
                determine_payment_type payment_amount
                  (purchase_total lines))⟩ := by
      unfold create_purchase
      rw [if_neg (by simp), if_neg hnotEmpty, if_neg (by simp [hval]),
        if_pos ⟨hpa, rfl⟩, if_neg (by simp)]
    refine ⟨_, heq, rfl, rfl, ?_, ?_⟩
    · show purchase_total lines - payment_amount < 0
      linarith
    · show determine_payment_status (purchase_total lines) payment_amount =
        InvoiceStatus.PAID
      rw [determine_payment_status, if_pos (le_of_lt hover)]
  · intro inv amount account_ok hgt
    unfold add_payment_to_purchase
    split_ifs <;> rfl

/-- C10 witness: one line of 1 unit at 100 with a creation payment of 150:
the invoice persists with paid 150, balance −50, status PAID. -/
theorem creation_payment_not_capped_witness :
    ∃ r, create_purchase true 1 1 [⟨true, ⟨1, 100⟩⟩] 150 true true = some r ∧
      r.invoice.paid_amount = 150 ∧
      r.invoice.balance_due = purchase_total [⟨true, ⟨1, 100⟩⟩] - 150 ∧
      r.invoice.balance_due < 0 ∧
      r.invoice.payment_status = InvoiceStatus.PAID :=
  (creation_payment_not_capped 1 1 [⟨true, ⟨1, 100⟩⟩] 150 (by simp)
    (by norm_num [lineValid]) (by norm_num [purchase_total])).1

/-- Allocation method accepted by `DirectPaymentService.create_direct_payment`
(payment_supplier.py lines 95-226). -/
inductive AllocationMethod where
  | FIFO
  | LIFO
  | PROPORTIONAL
  deriving DecidableEq, Repr

/-- The FIFO/LIFO walk of `DirectPaymentService._allocate_payment`
(payment_supplier.py lines 233-239): stop when nothing remains, otherwise
allocate `min remaining balance_due` to each invoice in order.  Each entry
pairs the invoice's pre-payment `balance_due` with the allocated amount. -/
def allocate_sequential : ℚ → List ℚ → List (ℚ × ℚ)
  | _, [] => []
  | remaining, bd :: rest =>
      if remaining ≤ 0 then []
      else (bd, min remaining bd) ::
        allocate_sequential (remaining - min remaining bd) rest

/-- The proportional branch of `DirectPaymentService._allocate_payment`
(payment_supplier.py lines 241-246): allocate
`min (amount * balance_due / total_due) balance_due` to every invoice. -/
def allocate_proportional (amount : ℚ) (balances : List ℚ) : List (ℚ × ℚ) :=
  let total_due := balances.sum
  balances.map fun bd => (bd, min (amount * (bd / total_due)) bd)

/-- Supplier outstanding balance as computed by
`get_supplier_outstanding_balance` (payment_supplier.py lines 38-93): the
financial-ledger sums `Σ debit - Σ credit` — not the sum of invoice
balances. -/
def ledger_outstanding (rows : List FinRow) : ℚ :=
  (rows.map FinRow.debit).sum - (rows.map FinRow.credit).sum

/-- `DirectPaymentService.create_direct_payment` (payment_supplier.py lines
95-226), allocation outcome: reject when the amount exceeds the
ledger-derived outstanding balance, when the supplier or account is invalid,
when the amount is non-positive, or when there are no outstanding invoices;
otherwise allocate over the outstanding invoices (given oldest-first with
`balance_due > 0`) ordered according to the method. -/
def create_direct_payment (rows : List FinRow) (supplier_ok account_ok : Bool)
    (balances : List ℚ) (amount : ℚ) (method : AllocationMethod) :
    Option (List (ℚ × ℚ)) :=
  if ledger_outstanding rows < amount then none
  else if ¬supplier_ok then none
  else if amount ≤ 0 then none
  else if ¬account_ok then none
  else if balances.isEmpty then none
  else
    match method with
    | AllocationMethod.FIFO => some (allocate_sequential amount balances)
    | AllocationMethod.LIFO =>
        some (allocate_sequential amount balances.reverse)
    | AllocationMethod.PROPORTIONAL =>
        some (allocate_proportional amount balances)

/-- The FIFO/LIFO walk allocates exactly `min amount (Σ balances)` in total. -/
theorem allocate_sequential_sum : ∀ (balances : List ℚ) (amount : ℚ),
    0 ≤ amount → (∀ bd ∈ balances, 0 ≤ bd) →
    ((allocate_sequential amount balances).map Prod.snd).sum =
      min amount balances.sum := by
  intro balances
  induction balances with
  | nil =>
      intro amount ha hb
      simp [allocate_sequential, min_eq_right ha]
  | cons bd rest ih =>
      intro amount ha hb
      have hbd : 0 ≤ bd := hb bd (by simp)
      have hrest : ∀ x ∈ rest, 0 ≤ x := fun x hx => hb x (by simp [hx])
      have hS : 0 ≤ rest.sum := List.sum_nonneg hrest
      rcases le_or_lt amount 0 with h0 | h0
      · have hA : amount = 0 := le_antisymm h0 ha
        subst hA
        rw [allocate_sequential, if_pos le_rfl]
        simp only [List.map_nil, List.sum_nil, List.sum_cons]
        rw [min_eq_left (by linarith)]
      · have hmin : 0 ≤ amount - min amount bd := by
          rcases le_total amount bd with h | h
          · rw [min_eq_left h]; linarith
          · rw [min_eq_right h]; linarith
        rw [allocate_sequential, if_neg (not_le.mpr h0)]
        simp only [List.map_cons, List.sum_cons]
        rw [ih (amount - min amount bd) hmin hrest]
        rcases le_total amount bd with h | h
        · rw [min_eq_left h, sub_self, min_eq_left hS,
            min_eq_left (show amount ≤ bd + rest.sum by linarith)]
          ring
        · rw [min_eq_right h]
          rcases le_total (amount - bd) rest.sum with h2 | h2
          · rw [min_eq_left h2,
              min_eq_left (show amount ≤ bd + rest.sum by linarith)]
            ring
          · rw [min_eq_right h2,
              min_eq_right (show bd + rest.sum ≤ amount by linarith)]

/-- Sum of a list scaled through `amount * (· / total)`. -/
theorem sum_map_scale (amount total : ℚ) (l : List ℚ) :
    (l.map fun bd => amount * (bd / total)).sum = amount * (l.sum / total) := by
  induction l with
  | nil => simp
  | cons x xs ih =>
      simp only [List.map_cons, List.sum_cons, ih]
      ring

/-- The proportional allocation also totals `min amount (Σ balances)` when all
outstanding balances are positive (as guaranteed by the `balance_due > 0`
invoice filter). -/
theorem allocate_proportional_sum (amount : ℚ) (balances : List ℚ)
    (ha : 0 ≤ amount) (hb : ∀ bd ∈ balances, 0 < bd) :
    ((allocate_proportional amount balances).map Prod.snd).sum =
      min amount balances.sum := by
  cases balances with
  | nil => simp [allocate_proportional, min_eq_right ha]
  | cons bd0 rest =>
      set l := bd0 :: rest with hl
      have hT : 0 < l.sum := by
        have h0 : 0 < bd0 := hb bd0 (by simp [hl])
        have hS : 0 ≤ rest.sum :=
          List.sum_nonneg (fun x hx => le_of_lt (hb x (by simp [hl, hx])))
        simp only [hl, List.sum_cons]
        linarith
      unfold allocate_proportional
      rw [List.map_map]
      rcases le_total amount l.sum with hcase | hcase
      · have hcong : l.map (Prod.snd ∘ fun bd =>
            ((bd : ℚ), min (amount * (bd / l.sum)) bd)) =
            l.map fun bd => amount * (bd / l.sum) := by
          apply List.map_congr_left
          intro bd hbd
          have hpos : 0 < bd := hb bd hbd
          have hle : amount * (bd / l.sum) ≤ bd := by
            rw [div_eq_mul_inv, ← mul_assoc]
            have h1 : amount * bd ≤ l.sum * bd :=
              mul_le_mul_of_nonneg_right hcase (le_of_lt hpos)
            calc amount * bd * (l.sum)⁻¹ ≤ l.sum * bd * (l.sum)⁻¹ :=
                  mul_le_mul_of_nonneg_right h1 (by positivity)
              _ = bd := by field_simp
          simp [min_eq_left hle]
        rw [hcong, sum_map_scale, min_eq_left hcase]
        field_simp
      · have hcong : l.map (Prod.snd ∘ fun bd =>
            ((bd : ℚ), min (amount * (bd / l.sum)) bd)) = l.map id := by
          apply List.map_congr_left
          intro bd hbd
          have hpos : 0 < bd := hb bd hbd
          have hle : bd ≤ amount * (bd / l.sum) := by
            rw [div_eq_mul_inv, ← mul_assoc]
            have h1 : l.sum * bd ≤ amount * bd :=
              mul_le_mul_of_nonneg_right hcase (le_of_lt hpos)
            calc bd = l.sum * bd * (l.sum)⁻¹ := by field_simp
              _ ≤ amount * bd * (l.sum)⁻¹ :=
                  mul_le_mul_of_nonneg_right h1 (by positivity)
          simp [min_eq_right hle]
        rw [hcong, List.map_id, min_eq_right hcase]

/-- No FIFO/LIFO allocation exceeds its invoice's pre-payment balance. -/
theorem allocate_sequential_le : ∀ (balances : List ℚ) (amount : ℚ)
    (p : ℚ × ℚ), p ∈ allocate_sequential amount balances → p.2 ≤ p.1 := by
  intro balances
  induction balances with
  | nil =>
      intro amount p hp
      simp [allocate_sequential] at hp
  | cons bd rest ih =>
      intro amount p hp
      rw [allocate_sequential] at hp
      split_ifs at hp
      · simp at hp
      · simp only [List.mem_cons] at hp
        rcases hp with hp | hp
        · subst hp
          exact min_le_right _ _
        · exact ih _ p hp

/-- No proportional allocation exceeds its invoice's pre-payment balance. -/
theorem allocate_proportional_le (amount : ℚ) (balances : List ℚ) (p : ℚ × ℚ)
    (hp : p ∈ allocate_proportional amount balances) : p.2 ≤ p.1 := by
  unfold allocate_proportional at hp
  simp only [List.mem_map] at hp
  obtain ⟨bd, -, rfl⟩ := hp
  exact min_le_right _ _

/-- C4 counterexample: a purchase of total 100 created with a 40 creation-time
payment but no payment account records `balance_due = 60` on the invoice while
writing no credit row, leaving the ledger-derived outstanding balance at 100.
A FIFO direct payment of 80 then passes the acceptance check (80 ≤ 100) but
allocates only 60 in total — the allocations do not sum to the payment
amount. -/
theorem allocation_conservation_counterexample :
    create_purchase true 1 1 [⟨true, ⟨1, 100⟩⟩] 40 false false =
      some ⟨⟨100, 40, 60, InvoiceStatus.PART_PAID⟩,
            [⟨LedgerRefType.PURCHASE, LedgerRef.invoice 1, 100, 0⟩], none⟩ ∧
    create_direct_payment
        [⟨LedgerRefType.PURCHASE, LedgerRef.invoice 1, 100, 0⟩]
        true true [60] 80 AllocationMethod.FIFO = some [(60, 60)] ∧
    (([((60 : ℚ), (60 : ℚ))].map Prod.snd).sum = 60 ∧ (60 : ℚ) ≠ 80) := by
  refine ⟨?_, ?_, by norm_num, by norm_num⟩
  · norm_num [create_purchase, purchase_total, lineValid,
      determine_payment_status]
  · norm_num [create_direct_payment, ledger_outstanding,
      allocate_sequential]

/-- C4 as amended: for every accepted multi-invoice direct payment of amount
A, the per-invoice allocations sum to `min A (Σ pre-payment balances)` — hence
exactly A whenever A does not exceed the total invoice balance, though the
acceptance check only bounds A by the ledger-derived outstanding balance —
and no allocation exceeds its invoice's pre-payment `balance_due`. -/
theorem allocation_conservation (rows : List FinRow)
    (supplier_ok account_ok : Bool) (balances : List ℚ) (amount : ℚ)
    (method : AllocationMethod) (allocs : List (ℚ × ℚ))
    (h : create_direct_payment rows supplier_ok account_ok balances amount
      method = some allocs)
    (hb : ∀ bd ∈ balances, 0 < bd) :
    ((allocs.map Prod.snd).sum = min amount balances.sum ∧
      (amount ≤ balances.sum → (allocs.map Prod.snd).sum = amount)) ∧
    ∀ p ∈ allocs, p.2 ≤ p.1 := by
  have hb' : ∀ bd ∈ balances, 0 ≤ bd := fun bd hbd => le_of_lt (hb bd hbd)
  unfold create_direct_payment at h
  split_ifs at h with h1 h2 h3 h4 h5
  have ha : 0 ≤ amount := by
    rw [not_le] at h3
    exact le_of_lt h3
  cases method with
  | FIFO =>
      rw [Option.some.injEq] at h
      subst h
      refine ⟨⟨allocate_sequential_sum balances amount ha hb', ?_⟩,
        fun p hp => allocate_sequential_le balances amount p hp⟩
      intro hle
      rw [allocate_sequential_sum balances amount ha hb', min_eq_left hle]
  | LIFO =>
      rw [Option.some.injEq] at h
      subst h
      have hrev : ∀ bd ∈ balances.reverse, 0 ≤ bd := by
        intro bd hbd
        exact hb' bd (List.mem_reverse.mp hbd)
      have hsum := allocate_sequential_sum balances.reverse amount ha hrev
      rw [List.sum_reverse] at hsum
      refine ⟨⟨hsum, ?_⟩,
        fun p hp => allocate_sequential_le balances.reverse amount p hp⟩
      intro hle
      rw [hsum, min_eq_left hle]
  | PROPORTIONAL =>
      rw [Option.some.injEq] at h
      subst h
      refine ⟨⟨allocate_proportional_sum amount balances ha hb, ?_⟩,
        fun p hp => allocate_proportional_le amount balances p hp⟩
      intro hle
      rw [allocate_proportional_sum amount balances ha hb, min_eq_left hle]

/-- C4 amended witness: a FIFO direct payment of 60 over invoices with
balances 30 and 50 (ledger outstanding 100) allocates 30 and 30 — summing to
the full 60, with each allocation within its invoice's balance. -/
theorem allocation_conservation_witness :
    ((([((30 : ℚ), (30 : ℚ)), (50, 30)]).map Prod.snd).sum =
        min 60 ([(30 : ℚ), 50]).sum ∧
      ((60 : ℚ) ≤ ([(30 : ℚ), 50]).sum →
        (([((30 : ℚ), (30 : ℚ)), (50, 30)]).map Prod.snd).sum = 60)) ∧
    ∀ p ∈ [((30 : ℚ), (30 : ℚ)), (50, 30)], p.2 ≤ p.1 := by
  exact allocation_conservation
    [⟨LedgerRefType.PURCHASE, LedgerRef.invoice 1, 100, 0⟩] true true
    [30, 50] 60 AllocationMethod.FIFO [(30, 30), (50, 30)]
    (by norm_num [create_direct_payment, ledger_outstanding,
      allocate_sequential])
    (by norm_num)

/-- C3 counterexample: starting from an empty item, purchase 10 @ 1 and 10 @ 3
(state (20, 2)), let production consume 6 units (state (14, 2)), then reverse
the 10 @ 3 purchase line (update/delete of its invoice):
`_reverse_invoice_items` computes average (2·14 − 3·10)/4 = −1/2 < 0 — the
`avg_price ≥ 0` invariant is violated, and the reversal is not rejected. -/
theorem stock_invariant_counterexample :
    applyIncoming ⟨0, 0⟩ ⟨10, 1⟩ = ⟨10, 1⟩ ∧
    applyIncoming ⟨10, 1⟩ ⟨10, 3⟩ = ⟨20, 2⟩ ∧
    productionDeduct ⟨20, 2⟩ 6 = some ⟨14, 2⟩ ∧
    (reverseLine ⟨14, 2⟩ ⟨10, 3⟩).avg_price < 0 := by
  refine ⟨?_, ?_, ?_, ?_⟩
  · norm_num [applyIncoming, calculate_weighted_average]
  · norm_num [applyIncoming, calculate_weighted_average]
  · norm_num [productionDeduct]
  · norm_num [reverseLine]

/-- C3 as amended: `total_quantity ≥ 0` is preserved by every stock operation:
incoming purchases add a positive quantity, the production deduction rejects
in full (returns an error) whenever stock is insufficient and never leaves a
negative quantity, and a purchase reversal that would overdraw clamps the
quantity at zero (rather than rejecting).  `avg_price ≥ 0` is preserved by
incoming purchases (with nonnegative price) and by outgoing movements — but
not by purchase reversal after an intervening outgoing movement, which can
drive `avg_price` negative. -/
theorem stock_nonnegativity :
    (∀ s l, 0 ≤ s.total_quantity → 0 ≤ l.quantity →
      0 ≤ (applyIncoming s l).total_quantity) ∧
    (∀ s l, 0 ≤ s.total_quantity → 0 ≤ l.quantity → 0 ≤ s.avg_price →
      0 ≤ l.unit_price → 0 ≤ (applyIncoming s l).avg_price) ∧
    (∀ s q s', productionDeduct s q = some s' →
      0 ≤ s'.total_quantity ∧ s'.avg_price = s.avg_price) ∧
    (∀ s q, s.total_quantity < q → productionDeduct s q = none) ∧
    (∀ s l, 0 ≤ s.total_quantity → 0 ≤ (reverseLine s l).total_quantity) ∧
    (∀ s l, s.total_quantity < l.quantity →
      reverseLine s l =
        ⟨max 0 (s.total_quantity - l.quantity), s.avg_price⟩) := by
  refine ⟨?_, ?_, ?_, ?_, ?_, ?_⟩
  · intro s l hs hl
    simp only [applyIncoming]
    omega
  · intro s l hs hl ha hp
    simp only [applyIncoming, calculate_weighted_average]
    split_ifs with h
    · exact le_refl 0
    · apply div_nonneg
      · have c1 : (0:ℚ) ≤ (s.total_quantity : ℚ) := by exact_mod_cast hs
        have c2 : (0:ℚ) ≤ (l.quantity : ℚ) := by exact_mod_cast hl
        have := mul_nonneg c1 ha
        have := mul_nonneg c2 hp
        nlinarith
      · have : 0 ≤ s.total_quantity + l.quantity := by omega
        exact_mod_cast this
  · intro s q s' h
    unfold productionDeduct at h
    split_ifs at h with hc
    rw [Option.some.injEq] at h
    subst h
    constructor
    · simp only
      omega
    · rfl
  · intro s q hlt
    unfold productionDeduct
    rw [if_pos hlt]
  · intro s l hs
    unfold reverseLine
    split_ifs with h1 h2
    · exact le_refl 0
    · by_cases h3 : 0 < s.total_quantity - l.quantity
      · rw [if_pos h3]
        simp only
        omega
      · rw [if_neg h3]
    · exact le_max_left 0 _
  · intro s l hlt
    unfold reverseLine
    rw [if_neg (by omega), if_neg (by omega)]

/-- C3 amended witness: incoming 5 @ 3 on state (10, 2) keeps quantity and
average nonnegative; a deduction of 4 from 10 stays nonnegative with average
untouched; a deduction of 11 from 10 is rejected; reversing 7 units from a
5-unit state clamps the quantity to 0. -/
theorem stock_nonnegativity_witness :
    0 ≤ (applyIncoming ⟨10, 2⟩ ⟨5, 3⟩).total_quantity ∧
    0 ≤ (applyIncoming ⟨10, 2⟩ ⟨5, 3⟩).avg_price ∧
    (0 ≤ (⟨6, 2⟩ : ItemState).total_quantity ∧
      (⟨6, 2⟩ : ItemState).avg_price = (⟨10, 2⟩ : ItemState).avg_price) ∧
    productionDeduct ⟨10, 2⟩ 11 = none ∧
    0 ≤ (reverseLine ⟨5, 2⟩ ⟨7, 3⟩).total_quantity ∧
    reverseLine ⟨5, 2⟩ ⟨7, 3⟩ =
      ⟨max 0 ((5 : ℤ) - 7), (⟨5, 2⟩ : ItemState).avg_price⟩ := by
  have h := stock_nonnegativity
  refine ⟨h.1 ⟨10, 2⟩ ⟨5, 3⟩ (by norm_num) (by norm_num),
    h.2.1 ⟨10, 2⟩ ⟨5, 3⟩ (by norm_num) (by norm_num) (by norm_num)
      (by norm_num),
    h.2.2.1 ⟨10, 2⟩ 4 ⟨6, 2⟩ (by norm_num [productionDeduct]),
    h.2.2.2.1 ⟨10, 2⟩ 11 (by norm_num),
    h.2.2.2.2.1 ⟨5, 2⟩ ⟨7, 3⟩ (by norm_num),
    h.2.2.2.2.2 ⟨5, 2⟩ ⟨7, 3⟩ (by norm_num)⟩

/-- Total inventory value carried by an item state:
`avg_price · total_quantity`. -/
def stateValue (s : ItemState) : ℚ := s.avg_price * (s.total_quantity : ℚ)

/-- Two item states with the same nonzero quantity and the same total value
are equal. -/
theorem ItemState.eq_of_value (s t : ItemState)
    (hq : s.total_quantity = t.total_quantity)
    (hv : stateValue s = stateValue t) (h0 : s.total_quantity ≠ 0) :
    s = t := by
  obtain ⟨sq, sa⟩ := s
  obtain ⟨tq, ta⟩ := t
  simp only at hq h0
  subst hq
  unfold stateValue at hv
  simp only at hv
  have hcast : ((sq : ℚ)) ≠ 0 := Int.cast_ne_zero.mpr h0
  have hsa := mul_right_cancel₀ hcast hv
  rw [hsa]

/-- Applying an incoming line adds `unit_price · quantity` to the item's
total value (no zero-division branch is taken when quantities are sane). -/
theorem applyIncoming_value (s : ItemState) (l : PurchaseLine)
    (hs : 0 ≤ s.total_quantity) (hl : 0 < l.quantity) :
    stateValue (applyIncoming s l) =
      stateValue s + l.unit_price * (l.quantity : ℚ) := by
  have hsum : s.total_quantity + l.quantity ≠ 0 := by omega
  have hcast : ((s.total_quantity + l.quantity : ℤ) : ℚ) ≠ 0 :=
    Int.cast_ne_zero.mpr hsum
  unfold stateValue applyIncoming calculate_weighted_average
  rw [if_neg hsum]
  simp only
  rw [div_mul_cancel₀ _ hcast]
  ring

/-- A fold of incoming purchase lines adds the line quantities to the item's
quantity and the line totals to its value. -/
theorem foldl_applyIncoming_spec :
    ∀ (lines : List PurchaseLine) (s : ItemState),
    0 ≤ s.total_quantity → (∀ l ∈ lines, 0 < l.quantity) →
    (List.foldl applyIncoming s lines).total_quantity =
      s.total_quantity + (lines.map PurchaseLine.quantity).sum ∧
    stateValue (List.foldl applyIncoming s lines) =
      stateValue s + (lines.map fun l =>
        l.unit_price * (l.quantity : ℚ)).sum := by
  intro lines
  induction lines with
  | nil =>
      intro s hs hl
      simp
  | cons l rest ih =>
      intro s hs hl
      have hl0 : 0 < l.quantity := hl l (by simp)
      have hq1 : (applyIncoming s l).total_quantity =
          s.total_quantity + l.quantity := rfl
      have hv1 := applyIncoming_value s l hs hl0
      have hs1 : 0 ≤ (applyIncoming s l).total_quantity := by
        rw [hq1]; omega
      have hrest : ∀ x ∈ rest, 0 < x.quantity :=
        fun x hx => hl x (by simp [hx])
      obtain ⟨ihq, ihv⟩ := ih (applyIncoming s l) hs1 hrest
      constructor
      · rw [List.foldl_cons, ihq, hq1, List.map_cons, List.sum_cons]
        ring
      · rw [List.foldl_cons, ihv, hv1, List.map_cons, List.sum_cons]
        ring

/-- Sum of positive line quantities is nonnegative. -/
theorem quantities_sum_nonneg (rest : List PurchaseLine)
    (h : ∀ x ∈ rest, 0 < x.quantity) :
    0 ≤ (rest.map PurchaseLine.quantity).sum := by
  apply List.sum_nonneg
  intro x hx
  obtain ⟨a, ha, rfl⟩ := List.mem_map.mp hx
  exact le_of_lt (h a ha)

/-- Reversing the first applied line after further lines were applied lands on
the state the remaining lines alone would have produced, whenever the base
quantity plus the remaining quantities is positive (the algebraic-subtraction
branch of `_reverse_invoice_items` is then exact). -/
theorem reverse_after_apply_aux (s : ItemState) (l : PurchaseLine)
    (rest : List PurchaseLine) (hs : 0 ≤ s.total_quantity)
    (hl : 0 < l.quantity) (hrest : ∀ x ∈ rest, 0 < x.quantity)
    (hpos : 0 < s.total_quantity + (rest.map PurchaseLine.quantity).sum) :
    reverseLine (List.foldl applyIncoming (applyIncoming s l) rest) l =
      List.foldl applyIncoming s rest := by
  have hq1 : (applyIncoming s l).total_quantity =
      s.total_quantity + l.quantity := rfl
  have hv1 := applyIncoming_value s l hs hl
  have hs1 : 0 ≤ (applyIncoming s l).total_quantity := by rw [hq1]; omega
  obtain ⟨hEq, hEv⟩ :=
    foldl_applyIncoming_spec rest (applyIncoming s l) hs1 hrest
  obtain ⟨hRq, hRv⟩ := foldl_applyIncoming_spec rest s hs hrest
  set E := List.foldl applyIncoming (applyIncoming s l) rest with hE
  set R := List.foldl applyIncoming s rest with hR
  rw [hq1] at hEq
  have hEgt : l.quantity < E.total_quantity := by omega
  have hnewpos : 0 < E.total_quantity - l.quantity := by omega
  simp only [reverseLine]
  rw [if_neg (by omega), if_pos hEgt, if_pos hnewpos]
  apply ItemState.eq_of_value
  · simp only
    omega
  · unfold stateValue
    simp only
    have hQ : ((E.total_quantity - l.quantity : ℤ) : ℚ) ≠ 0 :=
      Int.cast_ne_zero.mpr (by omega)
    rw [div_mul_cancel₀ _ hQ]
    have hSV : stateValue E =
        E.avg_price * (E.total_quantity : ℚ) := rfl
    have hRSV : stateValue R =
        R.avg_price * (R.total_quantity : ℚ) := rfl
    rw [← hSV, ← hRSV, hEv, hv1, hRv]
    ring
  · simp only
    omega

/-- The commuting step covering both a positive base quantity and the
freshly-created item `(0, 0)`. -/
theorem reverse_after_apply (s : ItemState) (l : PurchaseLine)
    (rest : List PurchaseLine)
    (hside : 0 < s.total_quantity ∨
      (s.total_quantity = 0 ∧ s.avg_price = 0))
    (hl : 0 < l.quantity) (hrest : ∀ x ∈ rest, 0 < x.quantity) :
    reverseLine (List.foldl applyIncoming (applyIncoming s l) rest) l =
      List.foldl applyIncoming s rest := by
  rcases hside with hpos | ⟨hq0, ha0⟩
  · apply reverse_after_apply_aux s l rest (le_of_lt hpos) hl hrest
    have := quantities_sum_nonneg rest hrest
    omega
  · cases rest with
    | nil =>
        obtain ⟨sq, sa⟩ := s
        simp only at hq0 ha0
        subst hq0
        subst ha0
        simp only [List.foldl_nil, applyIncoming, reverseLine]
        rw [if_pos (by omega)]
    | cons r rest' =>
        apply reverse_after_apply_aux s l (r :: rest') (by omega) hl hrest
        have h1 : 0 < r.quantity := hrest r (by simp)
        have h2 : 0 ≤ (rest'.map PurchaseLine.quantity).sum :=
          quantities_sum_nonneg rest' (fun x hx => hrest x (by simp [hx]))
        simp only [List.map_cons, List.sum_cons]
        omega

/-- Applying an invoice's lines and then reversing them (in the same order, as
`_reverse_invoice_items` iterates `invoice.items`) restores the item state,
for a positive starting quantity or a pristine `(0, 0)` item. -/
theorem purchase_roundtrip_fold :
    ∀ (lines : List PurchaseLine) (s : ItemState),
    (0 < s.total_quantity ∨ (s.total_quantity = 0 ∧ s.avg_price = 0)) →
    (∀ l ∈ lines, 0 < l.quantity) →
    List.foldl reverseLine (List.foldl applyIncoming s lines) lines = s := by
  intro lines
  induction lines with
  | nil =>
      intro s _ _
      simp
  | cons l rest ih =>
      intro s hside hl
      rw [List.foldl_cons, List.foldl_cons,
        reverse_after_apply s l rest hside (hl l (by simp))
          (fun x hx => hl x (by simp [hx]))]
      exact ih s hside (fun x hx => hl x (by simp [hx]))

/-- One `Stock` ledger row (`app/models/stock.py`). -/
structure StockRow where
  item_id : ℕ
  ref_invoice : ℕ
  qty_in : ℤ
  qty_out : ℤ
  unit_price : ℚ
  deriving DecidableEq, Repr

/-- Stock-ledger deletion performed by `_reverse_invoice_items`
(purchase_service.py lines 424-433): remove every stock row whose
`ref_type = PURCHASE` reference is the invoice being deleted. -/
def delete_invoice_stock_rows (rows : List StockRow) (invoice_id : ℕ) :
    List StockRow :=
  rows.filter fun r => r.ref_invoice ≠ invoice_id

/-- Financial-ledger deletion performed by `delete_purchase_invoice`
(purchase_service.py lines 550-563): remove every financial row whose
`ref_id` matches the invoice (the `LIKE` also catches `PURCHASE_UPDATE`
rows, which here carry the same invoice reference). -/
def delete_invoice_fin_rows (rows : List FinRow) (invoice_id : ℕ) :
    List FinRow :=
  rows.filter fun r => r.ref ≠ LedgerRef.invoice invoice_id

/-- C5 counterexample: a raw item is bought (10 @ 2), fully consumed by
production leaving state (0, 2) — quantity zero with a nonzero average —
then purchased again (5 @ 4) and that purchase deleted.
`_reverse_invoice_items` takes its quantity-equality branch and resets the
item to (0, 0): `avg_price` is not restored to its pre-purchase value 2. -/
theorem purchase_roundtrip_counterexample :
    applyIncoming ⟨0, 0⟩ ⟨10, 2⟩ = ⟨10, 2⟩ ∧
    productionDeduct ⟨10, 2⟩ 10 = some ⟨0, 2⟩ ∧
    applyIncoming ⟨0, 2⟩ ⟨5, 4⟩ = ⟨5, 4⟩ ∧
    reverseLine ⟨5, 4⟩ ⟨5, 4⟩ = ⟨0, 0⟩ ∧
    (⟨0, 0⟩ : ItemState).avg_price ≠ (⟨0, 2⟩ : ItemState).avg_price := by
  refine ⟨?_, ?_, ?_, ?_, ?_⟩
  · norm_num [applyIncoming, calculate_weighted_average]
  · norm_num [productionDeduct]
  · norm_num [applyIncoming, calculate_weighted_average]
  · norm_num [reverseLine]
  · norm_num

/-- C5 as amended: creating a purchase and then deleting it (no other
movement in between) restores each purchased item's `total_quantity` and
`avg_price` whenever the pre-purchase state had positive quantity, or was the
pristine `(0, 0)` state; when the pre-purchase quantity is zero with a
nonzero `avg_price` (reachable after production consumed all stock), the
deletion restores the quantity but resets `avg_price` to 0.  Deletion leaves
zero residual stock-ledger and financial-ledger rows referencing the
invoice. -/
theorem purchase_delete_roundtrip :
    (∀ (s : ItemState) (lines : List PurchaseLine),
      (0 < s.total_quantity ∨ (s.total_quantity = 0 ∧ s.avg_price = 0)) →
      (∀ l ∈ lines, 0 < l.quantity) →
      List.foldl reverseLine (List.foldl applyIncoming s lines) lines = s) ∧
    (∀ rows invoice_id r, r ∈ delete_invoice_stock_rows rows invoice_id →
      r.ref_invoice ≠ invoice_id) ∧
    (∀ rows invoice_id r, r ∈ delete_invoice_fin_rows rows invoice_id →
      r.ref ≠ LedgerRef.invoice invoice_id) := by
  refine ⟨fun s lines h1 h2 => purchase_roundtrip_fold lines s h1 h2, ?_, ?_⟩
  · intro rows invoice_id r hr
    have hmem := List.mem_filter.mp hr
    simpa using hmem.2
  · intro rows invoice_id r hr
    have hmem := List.mem_filter.mp hr
    simpa using hmem.2

/-- C5 amended witness: buying 5 @ 2 into state (10, 3) and deleting the
purchase restores (10, 3); after deleting invoice 7 no stock row references
invoice 7. -/
theorem purchase_delete_roundtrip_witness :
    List.foldl reverseLine
        (List.foldl applyIncoming ⟨10, 3⟩ [⟨5, 2⟩]) [⟨5, 2⟩] =
      (⟨10, 3⟩ : ItemState) ∧
    ∀ r ∈ delete_invoice_stock_rows [⟨1, 7, 5, 0, 2⟩] 7,
      r.ref_invoice ≠ 7 := by
  have h := purchase_delete_roundtrip
  refine ⟨h.1 ⟨10, 3⟩ [⟨5, 2⟩] (Or.inl (by norm_num)) ?_,
    fun r hr => h.2.1 [⟨1, 7, 5, 0, 2⟩] 7 r hr⟩
  intro l hl
  rw [List.mem_singleton] at hl
  subst hl
  norm_num

/-- `_round_required` (production_service.py lines 396-398): round the
required decimal quantity to an integer with `ROUND_HALF_UP`; for the
nonnegative quantities arising here this is `⌊x + 1/2⌋`. -/
def roundHalfUp (x : ℚ) : ℤ := ⌊x + 1/2⌋

/-- One aggregated raw-material line of a batch: the raw item's current stock
and the summed `quantity_per_unit` from `_aggregate_recipe_by_raw_item`. -/
structure RawLine where
  total_quantity : ℤ
  qty_per_unit : ℚ
  deriving DecidableEq, Repr

/-- The `ProductionBatch` fields the state machine acts on. -/
structure ProdBatch where
  stage : ProductionStage
  quantity_produced : ℤ
  deriving DecidableEq, Repr

/-- Production state: the batch plus the stocks it touches — the aggregated
raw lines of the batch's recipe snapshot and the final product's quantity. -/
structure ProdState where
  batch : ProdBatch
  raws : List RawLine
  final_qty : ℤ
  deriving DecidableEq, Repr

/-- Per-raw-item deduction of `production_execute_draft` (production_service.py
lines 291-318): skip a rounded requirement of ≤ 0, error (rollback) if the
locked row holds less than `qty_out`, otherwise subtract. -/
def deductOne (qty : ℤ) (r : RawLine) : Option RawLine :=
  let qty_out := roundHalfUp (r.qty_per_unit * (qty : ℚ))
  if qty_out ≤ 0 then some r
  else if r.total_quantity < qty_out then none
  else some { r with total_quantity := r.total_quantity - qty_out }

/-- The deduction loop over all aggregated raw lines; any failure aborts the
whole transition. -/
def deductAll (qty : ℤ) : List RawLine → Option (List RawLine)
  | [] => some []
  | r :: rest =>
      match deductOne qty r, deductAll qty rest with
      | some r', some rest' => some (r' :: rest')
      | _, _ => none

/-- `production_execute_draft` (production_service.py lines 225-331): error on
a non-DRAFT batch or an empty recipe snapshot; error (with the full list of
insufficient items, no partial deduction) when any raw item's stock is below
its exact required total; otherwise deduct every raw item and set the stage to
`IN_PROCESS`. -/
def production_execute_draft (s : ProdState) : Option ProdState :=
  if s.batch.stage ≠ ProductionStage.DRAFT then none
  else if s.raws.isEmpty then none
  else if s.raws.any (fun r =>
      decide ((r.total_quantity : ℚ) <
        r.qty_per_unit * (s.batch.quantity_produced : ℚ))) then none
  else
    (deductAll s.batch.quantity_produced s.raws).map fun raws' =>
      { s with
          batch := { s.batch with stage := ProductionStage.IN_PROCESS }
          raws := raws' }

/-- `production_complete_batch` (production_service.py lines 334-393): error
on a non-IN_PROCESS batch; otherwise credit the final product by
`quantity_produced` and set the stage to `DONE`.  Raw materials are not
touched. -/
def production_complete_batch (s : ProdState) : Option ProdState :=
  if s.batch.stage ≠ ProductionStage.IN_PROCESS then none
  else
    some { s with
      batch := { s.batch with stage := ProductionStage.DONE }
      final_qty := s.final_qty + s.batch.quantity_produced }

/-- `delete_production_batch` (production_service.py lines 580-603): error only
when the batch does not exist.  The DRAFT-only stage guard is commented out in
the source (lines 590-594), so an existing batch is deleted (cascading to
serials and the recipe snapshot) regardless of its stage. -/
def delete_production_batch (batch_found : Bool)
    (_stage : ProductionStage) : Option Bool :=
  if ¬batch_found then none
  else some true

/-- A successful `production_execute_draft` starts from DRAFT, lands in
IN_PROCESS, deducts the raw lines exactly as `deductAll` specifies, and leaves
the final product untouched. -/
theorem production_execute_spec (s s' : ProdState)
    (h : production_execute_draft s = some s') :
    s.batch.stage = ProductionStage.DRAFT ∧
    s'.batch.stage = ProductionStage.IN_PROCESS ∧
    deductAll s.batch.quantity_produced s.raws = some s'.raws ∧
    s'.final_qty = s.final_qty ∧
    s'.batch.quantity_produced = s.batch.quantity_produced := by
  unfold production_execute_draft at h
  split_ifs at h with h1 h2 h3
  rw [Option.map_eq_some'] at h
  obtain ⟨raws', hd, hs'⟩ := h
  subst hs'
  exact ⟨not_not.mp h1, rfl, by rw [hd], rfl, rfl⟩

/-- A successful `production_complete_batch` starts from IN_PROCESS, lands in
DONE, credits the final product once, and leaves raw stocks untouched. -/
theorem production_complete_spec (s s' : ProdState)
    (h : production_complete_batch s = some s') :
    s.batch.stage = ProductionStage.IN_PROCESS ∧
    s'.batch.stage = ProductionStage.DONE ∧
    s'.final_qty = s.final_qty + s.batch.quantity_produced ∧
    s'.raws = s.raws := by
  unfold production_complete_batch at h
  split_ifs at h with h1
  rw [Option.some.injEq] at h
  subst h
  exact ⟨not_not.mp h1, rfl, rfl, rfl⟩

/-- C6: the production stage machine only advances DRAFT → IN_PROCESS → DONE:
executing a non-DRAFT batch and completing a non-IN_PROCESS batch are
validation errors; a successful execute moves DRAFT to IN_PROCESS and is the
only step that deducts raw stock; a successful complete moves IN_PROCESS to
DONE and is the only step that credits the finished item; and after either
transition the same transition (and, after completion, any transition) can
never fire again — so deduction and credit each happen exactly once. -/
theorem production_stage_monotonicity :
    (∀ s : ProdState, s.batch.stage ≠ ProductionStage.DRAFT →
      production_execute_draft s = none) ∧
    (∀ s : ProdState, s.batch.stage ≠ ProductionStage.IN_PROCESS →
      production_complete_batch s = none) ∧
    (∀ s s' : ProdState, production_execute_draft s = some s' →
      s.batch.stage = ProductionStage.DRAFT ∧
      s'.batch.stage = ProductionStage.IN_PROCESS ∧
      deductAll s.batch.quantity_produced s.raws = some s'.raws ∧
      s'.final_qty = s.final_qty) ∧
    (∀ s s' : ProdState, production_complete_batch s = some s' →
      s.batch.stage = ProductionStage.IN_PROCESS ∧
      s'.batch.stage = ProductionStage.DONE ∧
      s'.final_qty = s.final_qty + s.batch.quantity_produced ∧
      s'.raws = s.raws) ∧
    (∀ s s' : ProdState, production_execute_draft s = some s' →
      production_execute_draft s' = none) ∧
    (∀ s s' : ProdState, production_complete_batch s = some s' →
      production_complete_batch s' = none ∧
      production_execute_draft s' = none) := by
  have hexec : ∀ s : ProdState, s.batch.stage ≠ ProductionStage.DRAFT →
      production_execute_draft s = none := by
    intro s h
    unfold production_execute_draft
    rw [if_pos h]
  have hcomp : ∀ s : ProdState, s.batch.stage ≠ ProductionStage.IN_PROCESS →
      production_complete_batch s = none := by
    intro s h
    unfold production_complete_batch
    rw [if_pos h]
  refine ⟨hexec, hcomp, ?_, ?_, ?_, ?_⟩
  · intro s s' h
    obtain ⟨a, b, c, d, -⟩ := production_execute_spec s s' h
    exact ⟨a, b, c, d⟩
  · exact production_complete_spec
  · intro s s' h
    obtain ⟨-, hb, -⟩ := production_execute_spec s s' h
    exact hexec s' (by rw [hb]; exact fun hc => ProductionStage.noConfusion hc)
  · intro s s' h
    obtain ⟨-, hb, -⟩ := production_complete_spec s s' h
    constructor
    · exact hcomp s' (by rw [hb]; exact fun hc => ProductionStage.noConfusion hc)
    · exact hexec s' (by rw [hb]; exact fun hc => ProductionStage.noConfusion hc)

/-- C6 witness: a batch of 3 units consuming 2 raw units each, with 10 raw
units in stock: executing from DONE or completing from DRAFT errors;
executing from DRAFT deducts 6 and reaches IN_PROCESS, after which executing
again errors; completing reaches DONE, after which nothing fires. -/
theorem production_stage_monotonicity_witness :
    production_execute_draft ⟨⟨ProductionStage.DONE, 3⟩, [⟨10, 2⟩], 0⟩ =
      none ∧
    production_complete_batch ⟨⟨ProductionStage.DRAFT, 3⟩, [⟨10, 2⟩], 0⟩ =
      none ∧
    ((⟨⟨ProductionStage.IN_PROCESS, 3⟩, [⟨4, 2⟩], 0⟩ : ProdState).batch.stage =
        ProductionStage.IN_PROCESS ∧
      deductAll 3 [⟨10, 2⟩] = some [⟨4, 2⟩]) ∧
    production_execute_draft
        ⟨⟨ProductionStage.IN_PROCESS, 3⟩, [⟨4, 2⟩], 0⟩ = none ∧
    (production_complete_batch ⟨⟨ProductionStage.DONE, 3⟩, [⟨4, 2⟩], 3⟩ =
        none ∧
      production_execute_draft ⟨⟨ProductionStage.DONE, 3⟩, [⟨4, 2⟩], 3⟩ =
        none) := by
  have h := production_stage_monotonicity
  have hexec : production_execute_draft
      ⟨⟨ProductionStage.DRAFT, 3⟩, [⟨10, 2⟩], 0⟩ =
      some ⟨⟨ProductionStage.IN_PROCESS, 3⟩, [⟨4, 2⟩], 0⟩ := by
    norm_num [production_execute_draft, deductAll, deductOne, roundHalfUp]
  have hcompl : production_complete_batch
      ⟨⟨ProductionStage.IN_PROCESS, 3⟩, [⟨4, 2⟩], 0⟩ =
      some ⟨⟨ProductionStage.DONE, 3⟩, [⟨4, 2⟩], 3⟩ := by
    norm_num [production_complete_batch]
  refine ⟨h.1 _ (by simp), h.2.1 _ (by simp), ?_, ?_, ?_⟩
  · obtain ⟨-, hb, hc, -⟩ := h.2.2.1 _ _ hexec
    exact ⟨hb, hc⟩
  · exact h.2.2.2.2.1 _ _ hexec
  · exact h.2.2.2.2.2 _ _ hcompl

/-- C7: deleting an existing production batch succeeds even when the batch is
IN_PROCESS or DONE — the DRAFT-only guard promised by the spec (and by the
function's own docstring) is commented out in the source, so inventory already
moved by the batch is silently orphaned; only a missing batch id errors. -/
theorem delete_production_batch_no_guard :
    delete_production_batch true ProductionStage.IN_PROCESS = some true ∧
    delete_production_batch true ProductionStage.DONE = some true ∧
    delete_production_batch false ProductionStage.DRAFT = none := by
  refine ⟨by decide, by decide, by decide⟩

/-- Validation environment of the recipe CRUD operations
(`app/services/recipe_service.py`): whether the final product id resolves to a
`FINAL_PRODUCT`, whether all raw items are valid `RAW_MATERIAL`s with positive
`quantity_per_unit`, whether a master recipe already exists for the product,
and whether any `ProductionBatch` for the product is in DONE stage. -/
structure RecipeEnv where
  final_ok : Bool
  items_ok : Bool
  has_existing_recipe : Bool
  has_done_batch : Bool
  deriving DecidableEq, Repr

/-- `has_production_done` (recipe_service.py lines 18-30). -/
def has_production_done (env : RecipeEnv) : Bool := env.has_done_batch

/-- `create_recipe` (recipe_service.py lines 98-151): validate the final
product, the raw items, and that no recipe exists yet — there is no
`has_production_done` check on this path. -/
def create_recipe (env : RecipeEnv) : Option Unit :=
  if ¬env.final_ok then none
  else if ¬env.items_ok then none
  else if env.has_existing_recipe then none
  else some ()

/-- `update_recipe` (recipe_service.py lines 198-246), given the recipe was
found: refuse while any batch for the product is DONE, then validate items. -/
def update_recipe (env : RecipeEnv) : Option Unit :=
  if has_production_done env then none
  else if ¬env.items_ok then none
  else some ()

/-- `delete_recipe` (recipe_service.py lines 249-268), given the recipe was
found: refuse while any batch for the product is DONE. -/
def delete_recipe (env : RecipeEnv) : Option Unit :=
  if has_production_done env then none
  else some ()

/-- C8 counterexample: a product with a DONE production batch but no current
master recipe (reachable by deleting the recipe while the batch was still
DRAFT or IN_PROCESS, then completing the batch): `create_recipe` succeeds —
it performs no DONE-stage check — contradicting the claim that recipe
creation raises a validation error for such a product. -/
theorem recipe_guard_counterexample :
    create_recipe ⟨true, true, false, true⟩ = some () := by
  decide

/-- C8 as amended: `update_recipe` and `delete_recipe` for a product with a
DONE batch raise a validation error and change nothing; `create_recipe`
performs no DONE-stage check — it fails only when a master recipe already
exists, and succeeds (creating a recipe) when the product has a DONE batch
but no current recipe. -/
theorem recipe_done_guard :
    (∀ env : RecipeEnv, env.has_done_batch = true →
      update_recipe env = none ∧ delete_recipe env = none) ∧
    (∀ env : RecipeEnv, env.final_ok = true → env.items_ok = true →
      env.has_existing_recipe = false → create_recipe env = some ()) := by
  constructor
  · intro env h
    unfold update_recipe delete_recipe has_production_done
    rw [h]
    exact ⟨rfl, rfl⟩
  · intro env h1 h2 h3
    unfold create_recipe
    rw [h1, h2, h3]
    rfl

/-- C8 amended witness: with a DONE batch present, updating and deleting the
existing recipe error out, while creating a recipe for a product without one
succeeds. -/
theorem recipe_done_guard_witness :
    update_recipe ⟨true, true, true, true⟩ = none ∧
    delete_recipe ⟨true, true, true, true⟩ = none ∧
    create_recipe ⟨true, true, false, true⟩ = some () := by
  have h := recipe_done_guard
  exact ⟨(h.1 ⟨true, true, true, true⟩ rfl).1,
    (h.1 ⟨true, true, true, true⟩ rfl).2,
    h.2 ⟨true, true, false, true⟩ rfl rfl rfl⟩

end Inventory
